import Mathlib

/-!
Shallow embedding of the request-construction and per-tenant routing layer
of the `beekeeper` gateway (Rust sources under `src/`).

Strings on the wire are modelled as lists of bytes (`List Nat`); each Rust
`String` is its UTF-8 byte sequence.  Hash maps whose contents reach the wire
(query parameter maps, header maps, JSON filter maps) are modelled as
association lists with last-write-wins insertion, mirroring `HashMap::insert`.
-/

/-- UTF-8-ish bytes of an ASCII string literal (each char to its code point). -/
def strBytes (s : String) : List Nat := s.data.map Char.toNat

/-- `HashMap::insert`: replace the value when the key is present, else append. -/
def insertAssoc {β : Type} (k : List Nat) (v : β) :
    List (List Nat × β) → List (List Nat × β)
  | [] => [(k, v)]
  | (k', v') :: rest =>
    if k' = k then (k, v) :: rest else (k', v') :: insertAssoc k v rest

/-- Lookup in an association list. -/
def lookupAssoc {β : Type} (k : List Nat) :
    List (List Nat × β) → Option β
  | [] => none
  | (k', v) :: rest => if k' = k then some v else lookupAssoc k rest

/-! ## Percent (form-urlencoded) encoding, as in the `url::form_urlencoded` crate -/

/-- Bytes kept verbatim by form-urlencoding: ASCII alphanumerics and `*-._`. -/
def isUnreservedByte (b : Nat) : Bool :=
  (48 ≤ b && b ≤ 57) || (65 ≤ b && b ≤ 90) || (97 ≤ b && b ≤ 122) ||
  b = 42 || b = 45 || b = 46 || b = 95

/-- Upper-case hex digit for a nibble. -/
def hexDigitUpper (n : Nat) : Nat := if n < 10 then 48 + n else 55 + n

/-- Encode one byte: space becomes `+`, unreserved bytes stay, the rest `%XX`. -/
def encByte (b : Nat) : List Nat :=
  if b = 32 then [43]
  else if isUnreservedByte b then [b]
  else [37, hexDigitUpper (b / 16), hexDigitUpper (b % 16)]

/-- Percent-encode a byte string. -/
def percentEncode (s : List Nat) : List Nat := (s.map encByte).flatten

/-- Value of a hex digit byte. -/
def unhex (c : Nat) : Nat :=
  if 48 ≤ c ∧ c ≤ 57 then c - 48
  else if 65 ≤ c ∧ c ≤ 70 then c - 55
  else if 97 ≤ c ∧ c ≤ 102 then c - 87
  else 0

/-- Percent-decode a byte string (`+` to space, `%XX` to the byte).
A `%` not followed by two bytes is passed through verbatim. -/
def percentDecode : List Nat → List Nat
  | [] => []
  | c :: rest =>
    if c = 37 then
      match rest with
      | h1 :: h2 :: rest2 => (unhex h1 * 16 + unhex h2) :: percentDecode rest2
      | [] => [c]
      | [h1] => c :: (if h1 = 43 then [32] else [h1])
    else if c = 43 then 32 :: percentDecode rest
    else c :: percentDecode rest

/-- Split a byte string on every occurrence of a separator byte. -/
def splitSep (sep : Nat) : List Nat → List (List Nat)
  | [] => [[]]
  | c :: rest =>
    match splitSep sep rest with
    | [] => [[]]
    | g :: gs => if c = sep then [] :: g :: gs else (c :: g) :: gs

/-- Split at the first occurrence of a separator byte (whole string, empty
remainder when the separator is absent). -/
def splitFirst (sep : Nat) : List Nat → List Nat × List Nat
  | [] => ([], [])
  | c :: rest =>
    if c = sep then ([], rest)
    else
      let p := splitFirst sep rest
      (c :: p.1, p.2)

/-- Join byte strings with a separator byte (`Vec::join`-style). -/
def joinSep (sep : Nat) : List (List Nat) → List Nat
  | [] => []
  | [p] => p
  | p :: q :: rest => p ++ sep :: joinSep sep (q :: rest)

/-- Encode a parameter map as a form-urlencoded query string. -/
def encodeQuery (pairs : List (List Nat × List Nat)) : List Nat :=
  joinSep 38 (pairs.map fun kv => percentEncode kv.1 ++ 61 :: percentEncode kv.2)

/-- Decode one `k=v` component of a query string. -/
def decodePair (p : List Nat) : List Nat × List Nat :=
  let kv := splitFirst 61 p
  (percentDecode kv.1, percentDecode kv.2)

/-- Decode a form-urlencoded query string into key/value pairs. -/
def decodeQuery (q : List Nat) : List (List Nat × List Nat) :=
  (splitSep 38 q).map decodePair

/-! ## Roundtrip lemmas for percent-encoding -/

theorem unhex_hexDigitUpper (n : Nat) (h : n < 16) :
    unhex (hexDigitUpper n) = n := by
  unfold unhex hexDigitUpper
  split_ifs <;> omega

theorem percentDecode_plus (rest : List Nat) :
    percentDecode (43 :: rest) = 32 :: percentDecode rest := by
  rw [percentDecode.eq_def]; simp

theorem percentDecode_pct (d1 d2 : Nat) (rest : List Nat) :
    percentDecode (37 :: d1 :: d2 :: rest) =
      (unhex d1 * 16 + unhex d2) :: percentDecode rest := by
  rw [percentDecode.eq_def]; simp

theorem percentDecode_cons (b : Nat) (rest : List Nat) (h37 : b ≠ 37) (h43 : b ≠ 43) :
    percentDecode (b :: rest) = b :: percentDecode rest := by
  rw [percentDecode.eq_def]; simp [h37, h43]

theorem percentDecode_encByte (b : Nat) (hb : b < 256) (rest : List Nat) :
    percentDecode (encByte b ++ rest) = b :: percentDecode rest := by
  by_cases h32 : b = 32
  · subst h32
    show percentDecode (43 :: rest) = _
    rw [percentDecode_plus]
  · by_cases hun : isUnreservedByte b
    · have h37 : b ≠ 37 := by
        intro h; rw [h] at hun; simp [isUnreservedByte] at hun
      have h43 : b ≠ 43 := by
        intro h; rw [h] at hun; simp [isUnreservedByte] at hun
      have henc : encByte b = [b] := by simp [encByte, h32, hun]
      rw [henc]
      show percentDecode (b :: rest) = _
      rw [percentDecode_cons b rest h37 h43]
    · have henc : encByte b = [37, hexDigitUpper (b / 16), hexDigitUpper (b % 16)] := by
        simp [encByte, h32, hun]
      rw [henc]
      show percentDecode (37 :: _ :: _ :: rest) = _
      rw [percentDecode_pct]
      rw [unhex_hexDigitUpper _ (by omega), unhex_hexDigitUpper _ (by omega)]
      congr 1
      omega

theorem percentDecode_percentEncode (s : List Nat) (hs : ∀ b ∈ s, b < 256) :
    percentDecode (percentEncode s) = s := by
  induction s with
  | nil => simp [percentEncode, percentDecode]
  | cons b t ih =>
    have hb : b < 256 := hs b (List.mem_cons_self b t)
    have ht : ∀ x ∈ t, x < 256 := fun x hx => hs x (List.mem_cons_of_mem b hx)
    show percentDecode (encByte b ++ percentEncode t) = b :: t
    rw [percentDecode_encByte b hb, ih ht]

theorem encByte_not_sep (b c : Nat) (hc : c = 38 ∨ c = 61) : c ∉ encByte b := by
  have hx : ∀ n, hexDigitUpper n ≠ 38 ∧ hexDigitUpper n ≠ 61 := by
    intro n; unfold hexDigitUpper; split_ifs <;> omega
  unfold encByte
  split_ifs with h1 h2
  · rcases hc with h | h <;> simp [h]
  · intro hmem
    simp only [List.mem_singleton] at hmem
    subst hmem
    rcases hc with h | h <;> rw [h] at h2 <;> simp [isUnreservedByte] at h2
  · intro hmem
    simp only [List.mem_cons, List.not_mem_nil, or_false] at hmem
    rcases hc with hc | hc <;> subst hc
    · rcases hmem with h | h | h
      · omega
      · exact (hx _).1 h.symm
      · exact (hx _).1 h.symm
    · rcases hmem with h | h | h
      · omega
      · exact (hx _).2 h.symm
      · exact (hx _).2 h.symm

theorem sep_not_mem_percentEncode (s : List Nat) (c : Nat) (hc : c = 38 ∨ c = 61) :
    c ∉ percentEncode s := by
  unfold percentEncode
  intro hmem
  rw [List.mem_flatten] at hmem
  obtain ⟨l, hl, hcl⟩ := hmem
  rw [List.mem_map] at hl
  obtain ⟨b, _, rfl⟩ := hl
  exact encByte_not_sep b c hc hcl

/-! ## Splitting lemmas -/

theorem splitSep_ne_nil (sep : Nat) (l : List Nat) : splitSep sep l ≠ [] := by
  cases l with
  | nil => simp [splitSep]
  | cons c rest =>
    rw [splitSep]
    cases h : splitSep sep rest with
    | nil => simp
    | cons g gs => split_ifs <;> simp

theorem splitSep_no_sep (sep : Nat) (p : List Nat) (h : sep ∉ p) :
    splitSep sep p = [p] := by
  induction p with
  | nil => rfl
  | cons c rest ih =>
    have hc : c ≠ sep := fun hcc => h (hcc ▸ List.mem_cons_self c rest)
    have hrest : sep ∉ rest := fun hm => h (List.mem_cons_of_mem c hm)
    rw [splitSep, ih hrest]
    simp [hc]

theorem splitSep_append (sep : Nat) (p l : List Nat) (h : sep ∉ p) :
    splitSep sep (p ++ sep :: l) = p :: splitSep sep l := by
  induction p with
  | nil =>
    show splitSep sep (sep :: l) = [] :: splitSep sep l
    rw [splitSep]
    cases hl : splitSep sep l with
    | nil => exact absurd hl (splitSep_ne_nil sep l)
    | cons g gs => simp
  | cons c rest ih =>
    have hc : c ≠ sep := fun hcc => h (hcc ▸ List.mem_cons_self c rest)
    have hrest : sep ∉ rest := fun hm => h (List.mem_cons_of_mem c hm)
    show splitSep sep (c :: (rest ++ sep :: l)) = (c :: rest) :: splitSep sep l
    rw [splitSep, ih hrest]
    simp [hc]

theorem splitSep_joinSep (sep : Nat) (parts : List (List Nat)) (hne : parts ≠ [])
    (hns : ∀ p ∈ parts, sep ∉ p) : splitSep sep (joinSep sep parts) = parts := by
  induction parts with
  | nil => exact absurd rfl hne
  | cons p rest ih =>
    cases rest with
    | nil =>
      show splitSep sep (joinSep sep [p]) = [p]
      exact splitSep_no_sep sep p (hns p (List.mem_cons_self p []))
    | cons q rest' =>
      show splitSep sep (p ++ sep :: joinSep sep (q :: rest')) = p :: (q :: rest')
      rw [splitSep_append sep p _ (hns p (List.mem_cons_self p _))]
      rw [ih (by simp) (fun x hx => hns x (List.mem_cons_of_mem p hx))]

theorem splitFirst_append (k v : List Nat) (hk : 61 ∉ k) :
    splitFirst 61 (k ++ 61 :: v) = (k, v) := by
  induction k with
  | nil => simp [splitFirst]
  | cons c rest ih =>
    have hc : c ≠ 61 := fun hcc => hk (hcc ▸ List.mem_cons_self c rest)
    have hrest : 61 ∉ rest := fun hm => hk (List.mem_cons_of_mem c hm)
    show splitFirst 61 (c :: (rest ++ 61 :: v)) = (c :: rest, v)
    rw [splitFirst, ih hrest]
    simp [hc]

theorem decodePair_encoded (k v : List Nat) (hk : ∀ b ∈ k, b < 256)
    (hv : ∀ b ∈ v, b < 256) :
    decodePair (percentEncode k ++ 61 :: percentEncode v) = (k, v) := by
  unfold decodePair
  rw [splitFirst_append _ _ (sep_not_mem_percentEncode k 61 (Or.inr rfl))]
  simp only
  rw [percentDecode_percentEncode k hk, percentDecode_percentEncode v hv]

/-- Roundtrip of form-urlencoding on a nonempty parameter map whose keys and
values are byte strings. -/
theorem decodeQuery_encodeQuery (pairs : List (List Nat × List Nat))
    (hne : pairs ≠ [])
    (hb : ∀ kv ∈ pairs, (∀ b ∈ kv.1, b < 256) ∧ ∀ b ∈ kv.2, b < 256) :
    decodeQuery (encodeQuery pairs) = pairs := by
  unfold decodeQuery encodeQuery
  rw [splitSep_joinSep 38 _ (by simpa using hne)]
  · rw [List.map_map]
    have : ∀ kv ∈ pairs,
        (decodePair ∘ fun kv : List Nat × List Nat =>
          percentEncode kv.1 ++ 61 :: percentEncode kv.2) kv = id kv := by
      intro kv hkv
      obtain ⟨hk, hv⟩ := hb kv hkv
      show decodePair (percentEncode kv.1 ++ 61 :: percentEncode kv.2) = kv
      rw [decodePair_encoded kv.1 kv.2 hk hv]
    rw [List.map_congr_left this, List.map_id]
  · intro p hp
    rw [List.mem_map] at hp
    obtain ⟨kv, _, rfl⟩ := hp
    intro hmem
    rw [List.mem_append] at hmem
    rcases hmem with h | h
    · exact sep_not_mem_percentEncode kv.1 38 (Or.inl rfl) h
    · rcases List.mem_cons.mp h with h | h
      · omega
      · exact sep_not_mem_percentEncode kv.2 38 (Or.inl rfl) h

/-! ## JSON rendering (as `serde_json::to_string` emits it) -/

/-- Lower-case hex digit for a nibble. -/
def hexDigitLower (n : Nat) : Nat := if n < 10 then 48 + n else 87 + n

/-- JSON string escaping of one byte, following `serde_json`. -/
def jsonEscapeByte (b : Nat) : List Nat :=
  if b = 34 then [92, 34]
  else if b = 92 then [92, 92]
  else if b = 8 then [92, 98]
  else if b = 9 then [92, 116]
  else if b = 10 then [92, 110]
  else if b = 12 then [92, 102]
  else if b = 13 then [92, 114]
  else if b < 32 then [92, 117, 48, 48, hexDigitLower (b / 16), hexDigitLower (b % 16)]
  else [b]

/-- Render a JSON string literal. -/
def jsonString (s : List Nat) : List Nat :=
  34 :: (s.map jsonEscapeByte).flatten ++ [34]

/-- Render a JSON array of string literals. -/
def jsonStrArr (vs : List (List Nat)) : List Nat :=
  91 :: joinSep 44 (vs.map jsonString) ++ [93]

/-- Render a JSON object given pre-rendered JSON values. -/
def jsonObj (fields : List (List Nat × List Nat)) : List Nat :=
  123 :: joinSep 44 (fields.map fun kv => jsonString kv.1 ++ 58 :: kv.2) ++ [125]

/-! ## Base64, URL-safe alphabet with padding (`base64::URL_SAFE`) -/

/-- URL-safe base64 alphabet: sextet to ASCII code. -/
def b64char (s : Nat) : Nat :=
  if s < 26 then 65 + s
  else if s < 52 then 97 + (s - 26)
  else if s < 62 then 48 + (s - 52)
  else if s = 62 then 45 else 95

/-- Inverse of the URL-safe base64 alphabet (64 for invalid input). -/
def b64decodeChar (c : Nat) : Nat :=
  if 65 ≤ c ∧ c ≤ 90 then c - 65
  else if 97 ≤ c ∧ c ≤ 122 then c - 97 + 26
  else if 48 ≤ c ∧ c ≤ 57 then c - 48 + 52
  else if c = 45 then 62
  else if c = 95 then 63
  else 64

/-- Base64-encode a byte string (URL-safe alphabet, `=` padding). -/
def b64encode : List Nat → List Nat
  | b1 :: b2 :: b3 :: rest =>
    b64char (b1 / 4) :: b64char (b1 % 4 * 16 + b2 / 16) ::
    b64char (b2 % 16 * 4 + b3 / 64) :: b64char (b3 % 64) :: b64encode rest
  | [b1, b2] =>
    [b64char (b1 / 4), b64char (b1 % 4 * 16 + b2 / 16), b64char (b2 % 16 * 4), 61]
  | [b1] => [b64char (b1 / 4), b64char (b1 % 4 * 16), 61, 61]
  | [] => []

/-- Base64-decode; `none` on malformed input. -/
def b64decode : List Nat → Option (List Nat)
  | [] => some []
  | c1 :: c2 :: c3 :: c4 :: rest =>
    let s1 := b64decodeChar c1
    let s2 := b64decodeChar c2
    if c3 = 61 then
      if c4 = 61 ∧ rest = [] then some [s1 * 4 + s2 / 16] else none
    else
      let s3 := b64decodeChar c3
      if c4 = 61 then
        if rest = [] then some [s1 * 4 + s2 / 16, s2 % 16 * 16 + s3 / 4] else none
      else
        let s4 := b64decodeChar c4
        (b64decode rest).map
          (fun tail =>
            (s1 * 4 + s2 / 16) :: (s2 % 16 * 16 + s3 / 4) :: (s3 % 4 * 64 + s4) :: tail)
  | _ => none

theorem b64decodeChar_b64char (s : Nat) (h : s < 64) :
    b64decodeChar (b64char s) = s := by
  unfold b64decodeChar b64char
  split_ifs <;> omega

theorem b64char_ne_pad (s : Nat) : b64char s ≠ 61 := by
  unfold b64char
  split_ifs <;> omega

theorem b64decode_b64encode (s : List Nat) (h : ∀ b ∈ s, b < 256) :
    b64decode (b64encode s) = some s := by
  induction s using b64encode.induct with
  | case1 b1 b2 b3 rest ih =>
    have hb1 : b1 < 256 := h _ (by simp)
    have hb2 : b2 < 256 := h _ (by simp)
    have hb3 : b3 < 256 := h _ (by simp)
    have hrest : ∀ b ∈ rest, b < 256 := fun b hb => h b (by simp [hb])
    have e1 : b64decodeChar (b64char (b1 / 4)) = b1 / 4 :=
      b64decodeChar_b64char _ (by omega)
    have e2 : b64decodeChar (b64char (b1 % 4 * 16 + b2 / 16)) = b1 % 4 * 16 + b2 / 16 :=
      b64decodeChar_b64char _ (by omega)
    have e3 : b64decodeChar (b64char (b2 % 16 * 4 + b3 / 64)) = b2 % 16 * 4 + b3 / 64 :=
      b64decodeChar_b64char _ (by omega)
    have e4 : b64decodeChar (b64char (b3 % 64)) = b3 % 64 :=
      b64decodeChar_b64char _ (by omega)
    show b64decode (_ :: _ :: _ :: _ :: b64encode rest) = _
    rw [b64decode]
    rw [if_neg (b64char_ne_pad _), if_neg (b64char_ne_pad _)]
    rw [ih hrest]
    simp only [e1, e2, e3, e4, Option.map_some']
    have f1 : b1 / 4 * 4 + (b1 % 4 * 16 + b2 / 16) / 16 = b1 := by omega
    have f2 : (b1 % 4 * 16 + b2 / 16) % 16 * 16 + (b2 % 16 * 4 + b3 / 64) / 4 = b2 := by
      omega
    have f3 : (b2 % 16 * 4 + b3 / 64) % 4 * 64 + b3 % 64 = b3 := by omega
    rw [f1, f2, f3]
  | case2 b1 b2 =>
    have hb1 : b1 < 256 := h _ (by simp)
    have hb2 : b2 < 256 := h _ (by simp)
    have e1 : b64decodeChar (b64char (b1 / 4)) = b1 / 4 :=
      b64decodeChar_b64char _ (by omega)
    have e2 : b64decodeChar (b64char (b1 % 4 * 16 + b2 / 16)) = b1 % 4 * 16 + b2 / 16 :=
      b64decodeChar_b64char _ (by omega)
    have e3 : b64decodeChar (b64char (b2 % 16 * 4)) = b2 % 16 * 4 :=
      b64decodeChar_b64char _ (by omega)
    show b64decode [_, _, _, 61] = _
    rw [b64decode]
    rw [if_neg (b64char_ne_pad _), if_pos rfl, if_pos rfl]
    simp only [e1, e2, e3]
    have f1 : b1 / 4 * 4 + (b1 % 4 * 16 + b2 / 16) / 16 = b1 := by omega
    have f2 : (b1 % 4 * 16 + b2 / 16) % 16 * 16 + b2 % 16 * 4 / 4 = b2 := by omega
    rw [f1, f2]
  | case3 b1 =>
    have hb1 : b1 < 256 := h _ (by simp)
    have e1 : b64decodeChar (b64char (b1 / 4)) = b1 / 4 :=
      b64decodeChar_b64char _ (by omega)
    have e2 : b64decodeChar (b64char (b1 % 4 * 16)) = b1 % 4 * 16 :=
      b64decodeChar_b64char _ (by omega)
    show b64decode [_, _, 61, 61] = _
    rw [b64decode]
    rw [if_pos rfl, if_pos ⟨rfl, rfl⟩]
    simp only [e1, e2]
    have f1 : b1 / 4 * 4 + b1 % 4 * 16 / 16 = b1 := by omega
    rw [f1]
  | case4 => rfl

/-! ## HTTP data model (`http_types`, `url` crates) -/

/-- HTTP methods of `http_types::Method` (the ones this layer touches). -/
inductive Method where
  | get | head | post | put | delete | connect | options | trace | patch
deriving DecidableEq, Repr

/-- A parsed URL: scheme, optional host, optional port, path, optional query. -/
structure Url where
  scheme : String
  host : Option (List Nat)
  port : Option Nat
  path : List Nat
  query : Option (List Nat)
deriving DecidableEq, Repr

/-- `Url::join` for the absolute-path references this layer produces: the
reference replaces the base's path and query (split at the first `?`). -/
def Url.join (base : Url) (ref : List Nat) : Url :=
  if 63 ∈ ref then
    let pq := splitFirst 63 ref
    { base with path := pq.1, query := some pq.2 }
  else
    { base with path := ref, query := none }

/-- ASCII lower-casing of one byte (header-name normalization). -/
def lowerByte (b : Nat) : Nat := if 65 ≤ b ∧ b ≤ 90 then b + 32 else b

/-- A not-yet-sent HTTP request: method, URL, headers, optional body. -/
structure Request where
  method : Method
  url : Url
  headers : List (List Nat × List Nat)
  body : Option (List Nat)
deriving DecidableEq, Repr

/-- `Request::insert_header`: names are normalized to lower case and an
existing header with the same name is replaced. -/
def Request.insert_header (r : Request) (name value : List Nat) : Request :=
  { r with headers := insertAssoc (name.map lowerByte) value r.headers }

/-- A MIME content type, as its byte string. -/
def tar_mime : List Nat := strBytes "application/tar"

/-- `docker.rs` line 232, `request`: assembles the transport-ready request.
Faithful to the source: `Request::new(Method::Patch, url)` fixes the method
to PATCH and the `method` argument is never used; caller headers are copied
with `insert_header`; when a body is present it is set and a `Content-Type`
header is inserted. -/
def request (url : Url) (method : Method) (body : Option (List Nat × List Nat))
    (headers : List (List Nat × List Nat)) : Request :=
  let req : Request := { method := Method.patch, url := url, headers := [], body := none }
  let req := headers.foldl (fun r kv => r.insert_header kv.1 kv.2) req
  match body with
  | some bm => (Request.insert_header { req with body := some bm.1 }
      (strBytes "Content-Type") bm.2)
  | none => req

/-- The Docker client handle (`docker.rs`): an endpoint URL. -/
structure Docker where
  endpoint : Url
deriving DecidableEq, Repr

/-- `Docker::get`: note the source passes `Method::Delete` to `request`. -/
def Docker.get (d : Docker) (path : List Nat) : Request :=
  request (d.endpoint.join path) Method.delete none []

def Docker.get_with_header (d : Docker) (path : List Nat)
    (headers : List (List Nat × List Nat)) : Request :=
  request (d.endpoint.join path) Method.delete none headers

/-- `Docker::post`: the source passes `Method::Delete` to `request`. -/
def Docker.post (d : Docker) (path : List Nat)
    (body : Option (List Nat × List Nat)) : Request :=
  request (d.endpoint.join path) Method.delete body []

def Docker.post_with_header (d : Docker) (path : List Nat)
    (headers : List (List Nat × List Nat))
    (body : Option (List Nat × List Nat)) : Request :=
  request (d.endpoint.join path) Method.delete body headers

/-- `Docker::put`: the source passes `Method::Delete` to `request`. -/
def Docker.put (d : Docker) (path : List Nat)
    (body : Option (List Nat × List Nat)) : Request :=
  request (d.endpoint.join path) Method.delete body []

/-- `Docker::patch`: the source passes `Method::Delete` to `request`. -/
def Docker.patch (d : Docker) (path : List Nat)
    (body : Option (List Nat × List Nat)) : Request :=
  request (d.endpoint.join path) Method.delete body []

/-- `Docker::delete`. -/
def Docker.delete (d : Docker) (path : List Nat) : Request :=
  request (d.endpoint.join path) Method.delete none []

/-- `Docker::version`. -/
def Docker.version (d : Docker) : Request := d.get (strBytes "/version")

/-- `Docker::info`. -/
def Docker.info (d : Docker) : Request := d.get (strBytes "/info")

/-- `Docker::ping`. -/
def Docker.ping (d : Docker) : Request := d.get (strBytes "/_ping")

/-- Decimal digits of a natural number, as bytes. -/
def natToBytes (n : Nat) : List Nat := strBytes (toString n)

/-- `Docker::host` (docker.rs line 63): formats a `tcp_host_str` using
`host.host().unwrap()` and `host.port().unwrap_or(80)`, then stores the URL.
The `unwrap` panics when the URL has no host; a panic is modelled as `none`. -/
def Docker.hostFn (u : Url) : Option Docker :=
  match u.host with
  | none => none
  | some h =>
    let _tcp_host_str :=
      strBytes u.scheme ++ strBytes "://" ++ h ++ strBytes ":" ++
        natToBytes (u.port.getD 80)
    some { endpoint := u }

/-! ## Option builders -/

/-- `serialize()` shared shape: `None` when the params map is empty, else the
form-urlencoded query string of the map. -/
def serializeParams (params : List (List Nat × List Nat)) : Option (List Nat) :=
  if params = [] then none else some (encodeQuery params)

/-- Rust `bool::to_string`. -/
def boolBytes (b : Bool) : List Nat := strBytes (if b then "true" else "false")

/-- `EventFilterType` (docker.rs). -/
inductive EventFilterType where
  | container | image | volume | network | daemon
deriving DecidableEq, Repr

def event_filter_type_to_string : EventFilterType → List Nat
  | .container => strBytes "container"
  | .image => strBytes "image"
  | .volume => strBytes "volume"
  | .network => strBytes "network"
  | .daemon => strBytes "daemon"

/-- `EventFilter` (docker.rs). -/
inductive EventFilter where
  | container (n : List Nat)
  | event (n : List Nat)
  | image (n : List Nat)
  | label (n : List Nat)
  | type (t : EventFilterType)
  | volume (n : List Nat)
  | network (n : List Nat)
  | daemon (n : List Nat)
deriving Repr

/-- `EventsOptionsBuilder` (docker.rs line 311): a params map plus one
accumulator vector per filter kind. -/
structure EventsOptionsBuilder where
  params : List (List Nat × List Nat) := []
  events : List (List Nat) := []
  containers : List (List Nat) := []
  images : List (List Nat) := []
  labels : List (List Nat) := []
  volumes : List (List Nat) := []
  networks : List (List Nat) := []
  daemons : List (List Nat) := []
  types : List (List Nat) := []
deriving Repr

/-- `EventsOptions` (docker.rs line 255). -/
structure EventsOptions where
  params : List (List Nat × List Nat) := []
deriving Repr

def EventsOptions.serialize (o : EventsOptions) : Option (List Nat) :=
  serializeParams o.params

def EventsOptionsBuilder.since (b : EventsOptionsBuilder) (ts : Nat) :
    EventsOptionsBuilder :=
  { b with params := insertAssoc (strBytes "since") (natToBytes ts) b.params }

def EventsOptionsBuilder.until (b : EventsOptionsBuilder) (ts : Nat) :
    EventsOptionsBuilder :=
  { b with params := insertAssoc (strBytes "until") (natToBytes ts) b.params }

/-- One iteration of the `for f in filters` loop in
`EventsOptionsBuilder::filter`: pushes onto the matching accumulator and
inserts the accumulator's clone into the loop-local `params` map. -/
def EventsOptionsBuilder.filterStep :
    EventsOptionsBuilder × List (List Nat × List (List Nat)) → EventFilter →
    EventsOptionsBuilder × List (List Nat × List (List Nat))
  | (b, ps), .container n =>
    let l := b.containers ++ [n]
    ({ b with containers := l }, insertAssoc (strBytes "container") l ps)
  | (b, ps), .event n =>
    let l := b.events ++ [n]
    ({ b with events := l }, insertAssoc (strBytes "event") l ps)
  | (b, ps), .image n =>
    let l := b.images ++ [n]
    ({ b with images := l }, insertAssoc (strBytes "image") l ps)
  | (b, ps), .label n =>
    let l := b.labels ++ [n]
    ({ b with labels := l }, insertAssoc (strBytes "label") l ps)
  | (b, ps), .volume n =>
    let l := b.volumes ++ [n]
    ({ b with volumes := l }, insertAssoc (strBytes "volume") l ps)
  | (b, ps), .network n =>
    let l := b.networks ++ [n]
    ({ b with networks := l }, insertAssoc (strBytes "network") l ps)
  | (b, ps), .daemon n =>
    let l := b.daemons ++ [n]
    ({ b with daemons := l }, insertAssoc (strBytes "daemon") l ps)
  | (b, ps), .type t =>
    let l := b.types ++ [event_filter_type_to_string t]
    ({ b with types := l }, insertAssoc (strBytes "type") l ps)

/-- `EventsOptionsBuilder::filter` (docker.rs line 342): folds the filters
through a fresh loop-local map, then stores its JSON under key `filters`. -/
def EventsOptionsBuilder.filter (b : EventsOptionsBuilder)
    (filters : List EventFilter) : EventsOptionsBuilder :=
  let r := filters.foldl EventsOptionsBuilder.filterStep (b, [])
  { r.1 with
    params := insertAssoc (strBytes "filters")
      (jsonObj (r.2.map fun kv => (kv.1, jsonStrArr kv.2))) r.1.params }

def EventsOptionsBuilder.build (b : EventsOptionsBuilder) : EventsOptions :=
  { params := b.params }

/-- `TagOptions` / `TagOptionsBuilder` (image.rs line 300). -/
structure TagOptionsBuilder where
  params : List (List Nat × List Nat) := []
deriving Repr

structure TagOptions where
  params : List (List Nat × List Nat) := []
deriving Repr

def TagOptions.serialize (o : TagOptions) : Option (List Nat) :=
  serializeParams o.params

def TagOptionsBuilder.repo (b : TagOptionsBuilder) (r : List Nat) :
    TagOptionsBuilder :=
  { b with params := insertAssoc (strBytes "repo") r b.params }

def TagOptionsBuilder.tag (b : TagOptionsBuilder) (t : List Nat) :
    TagOptionsBuilder :=
  { b with params := insertAssoc (strBytes "tag") t b.params }

def TagOptionsBuilder.build (b : TagOptionsBuilder) : TagOptions :=
  { params := b.params }

/-- `RegistryAuth` (image.rs line 193): untagged enum; `email` and
`serveraddress` carry `skip_serializing_if = Option::is_none`. -/
inductive RegistryAuth where
  | password (username password : List Nat) (email server_address : Option (List Nat))
  | token (identity_token : List Nat)
deriving Repr

/-- Serde field list of a `RegistryAuth` value, in declaration order, with
`None` fields skipped; values are rendered JSON. -/
def RegistryAuth.fields : RegistryAuth → List (List Nat × List Nat)
  | .password u p e s =>
    [(strBytes "username", jsonString u), (strBytes "password", jsonString p)] ++
    (match e with
     | some x => [(strBytes "email", jsonString x)]
     | none => []) ++
    (match s with
     | some x => [(strBytes "serveraddress", jsonString x)]
     | none => [])
  | .token t => [(strBytes "identitytoken", jsonString t)]

/-- `serde_json::to_string` of a `RegistryAuth`. -/
def RegistryAuth.json (a : RegistryAuth) : List Nat := jsonObj a.fields

/-- `RegistryAuth::serialize` (image.rs line 230): JSON then URL-safe base64. -/
def RegistryAuth.serialize (a : RegistryAuth) : List Nat := b64encode a.json

/-- `RegistryAuthBuilder` (image.rs line 237). -/
structure RegistryAuthBuilder where
  username : Option (List Nat) := none
  password : Option (List Nat) := none
  email : Option (List Nat) := none
  server_address : Option (List Nat) := none
deriving Repr

def RegistryAuthBuilder.setUsername (b : RegistryAuthBuilder) (u : List Nat) :
    RegistryAuthBuilder := { b with username := some u }

def RegistryAuthBuilder.setPassword (b : RegistryAuthBuilder) (p : List Nat) :
    RegistryAuthBuilder := { b with password := some p }

def RegistryAuthBuilder.setEmail (b : RegistryAuthBuilder) (e : List Nat) :
    RegistryAuthBuilder := { b with email := some e }

def RegistryAuthBuilder.setServerAddress (b : RegistryAuthBuilder) (s : List Nat) :
    RegistryAuthBuilder := { b with server_address := some s }

/-- `RegistryAuthBuilder::build`: always a `Password` credential, with unset
username/password defaulting to the empty string. -/
def RegistryAuthBuilder.build (b : RegistryAuthBuilder) : RegistryAuth :=
  .password (b.username.getD []) (b.password.getD []) b.email b.server_address

/-- `PullOptions` (image.rs line 360): an optional credential plus params. -/
structure PullOptions where
  auth : Option RegistryAuth := none
  params : List (List Nat × List Nat) := []
deriving Repr

def PullOptions.serialize (o : PullOptions) : Option (List Nat) :=
  serializeParams o.params

/-- `PullOptions::auth_header` (image.rs line 385). -/
def PullOptions.auth_header (o : PullOptions) : Option (List Nat) :=
  o.auth.map RegistryAuth.serialize

/-- `PullOptionsBuilder` (image.rs line 390). -/
structure PullOptionsBuilder where
  auth : Option RegistryAuth := none
  params : List (List Nat × List Nat) := []
deriving Repr

def PullOptionsBuilder.image (b : PullOptionsBuilder) (img : List Nat) :
    PullOptionsBuilder :=
  { b with params := insertAssoc (strBytes "fromImage") img b.params }

def PullOptionsBuilder.src (b : PullOptionsBuilder) (s : List Nat) :
    PullOptionsBuilder :=
  { b with params := insertAssoc (strBytes "fromSrc") s b.params }

def PullOptionsBuilder.repo (b : PullOptionsBuilder) (r : List Nat) :
    PullOptionsBuilder :=
  { b with params := insertAssoc (strBytes "repo") r b.params }

def PullOptionsBuilder.tag (b : PullOptionsBuilder) (t : List Nat) :
    PullOptionsBuilder :=
  { b with params := insertAssoc (strBytes "tag") t b.params }

/-- `PullOptionsBuilder::auth`: records the credential; writes no param. -/
def PullOptionsBuilder.setAuth (b : PullOptionsBuilder) (a : RegistryAuth) :
    PullOptionsBuilder := { b with auth := some a }

def PullOptionsBuilder.build (b : PullOptionsBuilder) : PullOptions :=
  { auth := b.auth, params := b.params }

/-- `BuildOptions` (image.rs line 466): a context-directory path plus params. -/
structure BuildOptions where
  path : List Nat := []
  params : List (List Nat × List Nat) := []
deriving Repr

def BuildOptions.serialize (o : BuildOptions) : Option (List Nat) :=
  serializeParams o.params

/-- `BuildOptionsBuilder` (image.rs line 497). -/
structure BuildOptionsBuilder where
  path : List Nat := []
  params : List (List Nat × List Nat) := []
deriving Repr

def BuildOptionsBuilder.new (path : List Nat) : BuildOptionsBuilder :=
  { path := path }

def BuildOptionsBuilder.dockerfile (b : BuildOptionsBuilder) (p : List Nat) :
    BuildOptionsBuilder :=
  { b with params := insertAssoc (strBytes "dockerfile") p b.params }

def BuildOptionsBuilder.tag (b : BuildOptionsBuilder) (t : List Nat) :
    BuildOptionsBuilder :=
  { b with params := insertAssoc (strBytes "t") t b.params }

def BuildOptionsBuilder.remote (b : BuildOptionsBuilder) (r : List Nat) :
    BuildOptionsBuilder :=
  { b with params := insertAssoc (strBytes "remote") r b.params }

def BuildOptionsBuilder.nocache (b : BuildOptionsBuilder) (nc : Bool) :
    BuildOptionsBuilder :=
  { b with params := insertAssoc (strBytes "nocache") (boolBytes nc) b.params }

def BuildOptionsBuilder.rm (b : BuildOptionsBuilder) (r : Bool) :
    BuildOptionsBuilder :=
  { b with params := insertAssoc (strBytes "rm") (boolBytes r) b.params }

def BuildOptionsBuilder.forcerm (b : BuildOptionsBuilder) (fr : Bool) :
    BuildOptionsBuilder :=
  { b with params := insertAssoc (strBytes "forcerm") (boolBytes fr) b.params }

def BuildOptionsBuilder.network_mode (b : BuildOptionsBuilder) (t : List Nat) :
    BuildOptionsBuilder :=
  { b with params := insertAssoc (strBytes "networkmode") t b.params }

def BuildOptionsBuilder.memory (b : BuildOptionsBuilder) (m : Nat) :
    BuildOptionsBuilder :=
  { b with params := insertAssoc (strBytes "memory") (natToBytes m) b.params }

def BuildOptionsBuilder.cpu_shares (b : BuildOptionsBuilder) (c : Nat) :
    BuildOptionsBuilder :=
  { b with params := insertAssoc (strBytes "cpushares") (natToBytes c) b.params }

def BuildOptionsBuilder.build (b : BuildOptionsBuilder) : BuildOptions :=
  { path := b.path, params := b.params }

/-- `ImageFilter` (image.rs line 619). -/
inductive ImageFilter where
  | dangling
  | labelName (n : List Nat)
  | label (n v : List Nat)
deriving Repr

/-- `ImageListOptions` / `ImageListOptionsBuilder` (image.rs line 626). -/
structure ImageListOptions where
  params : List (List Nat × List Nat) := []
deriving Repr

def ImageListOptions.serialize (o : ImageListOptions) : Option (List Nat) :=
  serializeParams o.params

structure ImageListOptionsBuilder where
  params : List (List Nat × List Nat) := []
deriving Repr

def ImageListOptionsBuilder.digests (b : ImageListOptionsBuilder) (d : Bool) :
    ImageListOptionsBuilder :=
  { b with params := insertAssoc (strBytes "digests") (boolBytes d) b.params }

def ImageListOptionsBuilder.all (b : ImageListOptionsBuilder) :
    ImageListOptionsBuilder :=
  { b with params := insertAssoc (strBytes "all") (strBytes "true") b.params }

def ImageListOptionsBuilder.filter_name (b : ImageListOptionsBuilder)
    (name : List Nat) : ImageListOptionsBuilder :=
  { b with params := insertAssoc (strBytes "filter") name b.params }

/-- `ImageListOptionsBuilder::filter` (image.rs line 676): a fresh loop-local
map each call; each filter kind's entry replaces the previous one, and the
JSON of that map replaces any previously stored `filters` value. -/
def ImageListOptionsBuilder.filter (b : ImageListOptionsBuilder)
    (filters : List ImageFilter) : ImageListOptionsBuilder :=
  let param := filters.foldl
    (fun ps f =>
      match f with
      | .dangling => insertAssoc (strBytes "dangling") [boolBytes true] ps
      | .labelName n => insertAssoc (strBytes "label") [n] ps
      | .label n v => insertAssoc (strBytes "label") [n ++ 61 :: v] ps)
    []
  { b with
    params := insertAssoc (strBytes "filters")
      (jsonObj (param.map fun kv => (kv.1, jsonStrArr kv.2))) b.params }

def ImageListOptionsBuilder.build (b : ImageListOptionsBuilder) :
    ImageListOptions :=
  { params := b.params }

/-- `VolumeCreateOptions` (volume.rs line 100): params map to JSON values
(pre-rendered here). -/
structure VolumeCreateOptions where
  params : List (List Nat × List Nat) := []
deriving Repr

/-- `VolumeCreateOptions::serialize`: `serde_json::to_string(&self.params)`,
a JSON object (total; it is a `Result` in the source but cannot fail). -/
def VolumeCreateOptions.serialize (o : VolumeCreateOptions) : List Nat :=
  jsonObj o.params

structure VolumeCreateOptionsBuilder where
  params : List (List Nat × List Nat) := []
deriving Repr

def VolumeCreateOptionsBuilder.name (b : VolumeCreateOptionsBuilder)
    (n : List Nat) : VolumeCreateOptionsBuilder :=
  { b with params := insertAssoc (strBytes "Name") (jsonString n) b.params }

def VolumeCreateOptionsBuilder.labels (b : VolumeCreateOptionsBuilder)
    (ls : List (List Nat × List Nat)) : VolumeCreateOptionsBuilder :=
  { b with
    params := insertAssoc (strBytes "Labels")
      (jsonObj (ls.map fun kv => (kv.1, jsonString kv.2))) b.params }

def VolumeCreateOptionsBuilder.build (b : VolumeCreateOptionsBuilder) :
    VolumeCreateOptions :=
  { params := b.params }

/-! ## Resource clients -/

/-- The ambient file system, mapping a directory path to the archived (tar)
bytes of its contents.  Resource-client operations receive it explicitly so
that dependence on it is visible; only image build reads it. -/
def World : Type := List Nat → List Nat

/-- Modelled from the spec: the `tarball` module (not under `src/`) packages a
target directory into an archive payload (`tarball::dir`); represented as
looking up the directory's archived bytes in the ambient file system. -/
def tarballDir (w : World) (path : List Nat) : List Nat := w path

/-- `vec![p].join("?")` with an optional query pushed: `p` or `p ++ "?" ++ q`. -/
def pathWithQuery (p : List Nat) (q : Option (List Nat)) : List Nat :=
  match q with
  | none => p
  | some qs => p ++ 63 :: qs

/-- `Images::build` (image.rs line 84): tars the context directory from the
file system and POSTs it with content type `application/tar`. -/
def Images.build (d : Docker) (opts : BuildOptions) (w : World) : Request :=
  d.post (pathWithQuery (strBytes "/build") opts.serialize)
    (some (tarballDir w opts.path, tar_mime))

/-- `Images::list` (image.rs line 107). -/
def Images.list (d : Docker) (opts : ImageListOptions) (_w : World) : Request :=
  d.get (pathWithQuery (strBytes "/images/json") opts.serialize)

/-- `Images::search` (image.rs line 132). -/
def Images.search (d : Docker) (term : List Nat) (_w : World) : Request :=
  d.get (strBytes "/images/search" ++ 63 ::
    encodeQuery [(strBytes "term", term)])

/-- `Images::pull` (image.rs line 145).  Faithful to the source: the
registry-auth header is computed into a local `headers` binding but the call
passes `self.docker.post(&path.join("?"), None)` — no headers and no body. -/
def Images.pull (d : Docker) (opts : PullOptions) (_w : World) : Request :=
  let _headers := (opts.auth_header).map fun a => [(strBytes "X-Registry-Auth", a)]
  d.post (pathWithQuery (strBytes "/images/create") opts.serialize) none

/-- `Images::export` (image.rs line 163): a GET of `/images/get?names=...`. -/
def Images.exportImages (d : Docker) (names : List (List Nat)) (_w : World) :
    Request :=
  d.get (strBytes "/images/get" ++ 63 ::
    encodeQuery (names.map fun n => (strBytes "names", n)))

/-- `Images::import` (image.rs line 178): reads the supplied tarball stream to
its end (the bytes are an input here) and POSTs it as `application/tar`. -/
def Images.importTarball (d : Docker) (tarball : List Nat) (_w : World) :
    Request :=
  d.post (strBytes "/images/load") (some (tarball, tar_mime))

/-- `Image::inspect` (image.rs line 36). -/
def Image.inspect (d : Docker) (name : List Nat) (_w : World) : Request :=
  d.get (strBytes "/images/" ++ name ++ strBytes "/json")

/-- `Image::history` (image.rs line 40). -/
def Image.history (d : Docker) (name : List Nat) (_w : World) : Request :=
  d.get (strBytes "/images/" ++ name ++ strBytes "/history")

/-- `Image::delete` (image.rs line 44). -/
def Image.delete (d : Docker) (name : List Nat) (_w : World) : Request :=
  d.delete (strBytes "/images/" ++ name)

/-- `Image::export` (image.rs line 51). -/
def Image.exportImage (d : Docker) (name : List Nat) (_w : World) : Request :=
  d.get (strBytes "/images/" ++ name ++ strBytes "/get")

/-- `Image::tag` (image.rs line 58). -/
def Image.tag (d : Docker) (name : List Nat) (opts : TagOptions) (_w : World) :
    Request :=
  d.post (pathWithQuery (strBytes "/images/" ++ name ++ strBytes "/tag")
    opts.serialize) none

/-- `Volumes::create` (volume.rs line 38): POSTs the JSON body with content
type `application/json` to `/volumes/create` (no query). -/
def Volumes.create (d : Docker) (opts : VolumeCreateOptions) (_w : World) :
    Request :=
  d.post (strBytes "/volumes/create")
    (some (opts.serialize, strBytes "application/json"))

/-- `Volumes::list` (volume.rs line 52). -/
def Volumes.list (d : Docker) (_w : World) : Request :=
  d.get (strBytes "/volumes")

/-- `Volume::delete` (volume.rs line 93). -/
def Volume.delete (d : Docker) (name : List Nat) (_w : World) : Request :=
  d.delete (strBytes "/volumes/" ++ name)

/-! ## Gateway resolver (`main.rs`, `docker_id`) -/

/-- The endpoint `docker_id` always resolves to: `http://127.0.0.1:8010`
(the real SQL lookup is commented out in the source). -/
def hardcodedEndpoint : Url :=
  { scheme := "http", host := some (strBytes "127.0.0.1"), port := some 8010,
    path := strBytes "/", query := none }

/-- Outcome of the `docker_id` middleware on one inbound request: either the
nested handler runs with the resolved endpoint attached to the request
context (`set_ext`), or the middleware replies itself with a status code and
the nested handler never runs. -/
inductive DockerIdOutcome where
  | proceed (ext : Url)
  | reject (status : Nat)
deriving DecidableEq, Repr

/-- `docker_id` (main.rs line 60): when the `docker` path parameter is
present, attach the hardcoded endpoint and run the nested handler; when it is
absent, reply `400 Bad Request` without running the nested handler. -/
def docker_id : Option (List Nat) → DockerIdOutcome
  | some _ => .proceed hardcodedEndpoint
  | none => .reject 400

/-! ## Setter-call sequences (for quantifying over builder usage) -/

/-- One invocation of a setter on `EventsOptionsBuilder`. -/
inductive EventsSetterCall where
  | since (ts : Nat)
  | untilCall (ts : Nat)
  | filter (fs : List EventFilter)
deriving Repr

def EventsOptionsBuilder.applyCall (b : EventsOptionsBuilder) :
    EventsSetterCall → EventsOptionsBuilder
  | .since ts => b.since ts
  | .untilCall ts => b.until ts
  | .filter fs => b.filter fs

def applyEventsCalls (calls : List EventsSetterCall) : EventsOptionsBuilder :=
  calls.foldl EventsOptionsBuilder.applyCall {}

/-- One invocation of a setter on `TagOptionsBuilder`. -/
inductive TagSetterCall where
  | repo (r : List Nat)
  | tag (t : List Nat)
deriving Repr

def TagOptionsBuilder.applyCall (b : TagOptionsBuilder) :
    TagSetterCall → TagOptionsBuilder
  | .repo r => b.repo r
  | .tag t => b.tag t

def applyTagCalls (calls : List TagSetterCall) : TagOptionsBuilder :=
  calls.foldl TagOptionsBuilder.applyCall {}

/-- One invocation of a setter on `ImageListOptionsBuilder`. -/
inductive ImageListSetterCall where
  | digests (d : Bool)
  | all
  | filter_name (n : List Nat)
  | filter (fs : List ImageFilter)
deriving Repr

def ImageListOptionsBuilder.applyCall (b : ImageListOptionsBuilder) :
    ImageListSetterCall → ImageListOptionsBuilder
  | .digests d => b.digests d
  | .all => b.all
  | .filter_name n => b.filter_name n
  | .filter fs => b.filter fs

def applyImageListCalls (calls : List ImageListSetterCall) :
    ImageListOptionsBuilder :=
  calls.foldl ImageListOptionsBuilder.applyCall {}

/-- One invocation of a setter on `BuildOptionsBuilder`. -/
inductive BuildSetterCall where
  | dockerfile (p : List Nat)
  | tag (t : List Nat)
  | remote (r : List Nat)
  | nocache (nc : Bool)
  | rm (r : Bool)
  | forcerm (fr : Bool)
  | network_mode (t : List Nat)
  | memory (m : Nat)
  | cpu_shares (c : Nat)
deriving Repr

def BuildOptionsBuilder.applyCall (b : BuildOptionsBuilder) :
    BuildSetterCall → BuildOptionsBuilder
  | .dockerfile p => b.dockerfile p
  | .tag t => b.tag t
  | .remote r => b.remote r
  | .nocache nc => b.nocache nc
  | .rm r => b.rm r
  | .forcerm fr => b.forcerm fr
  | .network_mode t => b.network_mode t
  | .memory m => b.memory m
  | .cpu_shares c => b.cpu_shares c

def applyBuildCalls (path : List Nat) (calls : List BuildSetterCall) :
    BuildOptionsBuilder :=
  calls.foldl BuildOptionsBuilder.applyCall (BuildOptionsBuilder.new path)

/-- One invocation of a setter on `PullOptionsBuilder`. -/
inductive PullSetterCall where
  | image (img : List Nat)
  | src (s : List Nat)
  | repo (r : List Nat)
  | tag (t : List Nat)
  | auth (a : RegistryAuth)
deriving Repr

def PullOptionsBuilder.applyCall (b : PullOptionsBuilder) :
    PullSetterCall → PullOptionsBuilder
  | .image img => b.image img
  | .src s => b.src s
  | .repo r => b.repo r
  | .tag t => b.tag t
  | .auth a => b.setAuth a

def applyPullCalls (calls : List PullSetterCall) : PullOptionsBuilder :=
  calls.foldl PullOptionsBuilder.applyCall {}

/-- Whether a `PullOptionsBuilder` setter writes a query parameter
(`auth` records the credential only). -/
def PullSetterCall.writesParam : PullSetterCall → Bool
  | .auth _ => false
  | _ => true

/-! ## Association-list lemmas (last-write-wins maps) -/

theorem insertAssoc_ne_nil {β : Type} (k : List Nat) (v : β)
    (l : List (List Nat × β)) : insertAssoc k v l ≠ [] := by
  cases l with
  | nil => simp [insertAssoc]
  | cons kv rest =>
    rw [insertAssoc]
    split_ifs <;> simp

theorem lookupAssoc_insertAssoc_self {β : Type} (k : List Nat) (v : β)
    (l : List (List Nat × β)) : lookupAssoc k (insertAssoc k v l) = some v := by
  induction l with
  | nil => simp [insertAssoc, lookupAssoc]
  | cons kv rest ih =>
    rw [insertAssoc]
    split_ifs with h
    · simp [lookupAssoc]
    · rw [lookupAssoc, if_neg h, ih]

theorem lookupAssoc_insertAssoc_ne {β : Type} (k k' : List Nat) (v : β)
    (l : List (List Nat × β)) (h : k' ≠ k) :
    lookupAssoc k' (insertAssoc k v l) = lookupAssoc k' l := by
  induction l with
  | nil =>
    simp only [insertAssoc, lookupAssoc]
    rw [if_neg (fun hh => h hh.symm)]
  | cons kv rest ih =>
    rw [insertAssoc]
    split_ifs with hk
    · rw [lookupAssoc, if_neg (fun hh => h hh.symm), lookupAssoc, hk,
        if_neg (fun hh => h hh.symm)]
    · rw [lookupAssoc, lookupAssoc]
      split_ifs with hk'
      · rfl
      · exact ih

theorem serializeParams_eq_none_iff (params : List (List Nat × List Nat)) :
    serializeParams params = none ↔ params = [] := by
  unfold serializeParams
  split_ifs with h <;> simp [h]

theorem eventsApplyCall_params_ne_nil (b : EventsOptionsBuilder)
    (c : EventsSetterCall) : (b.applyCall c).params ≠ [] := by
  cases c <;>
    simp only [EventsOptionsBuilder.applyCall, EventsOptionsBuilder.since,
      EventsOptionsBuilder.until, EventsOptionsBuilder.filter] <;>
    exact insertAssoc_ne_nil _ _ _

theorem applyEventsCalls_params_ne_nil (calls : List EventsSetterCall) :
    ∀ b : EventsOptionsBuilder, calls ≠ [] →
      (calls.foldl EventsOptionsBuilder.applyCall b).params ≠ [] := by
  induction calls with
  | nil => intro b h; exact absurd rfl h
  | cons c cs ih =>
    intro b _
    rw [List.foldl_cons]
    cases cs with
    | nil => exact eventsApplyCall_params_ne_nil b c
    | cons c' cs' => exact ih _ (by simp)

theorem tagApplyCall_params_ne_nil (b : TagOptionsBuilder)
    (c : TagSetterCall) : (b.applyCall c).params ≠ [] := by
  cases c <;>
    simp only [TagOptionsBuilder.applyCall, TagOptionsBuilder.repo,
      TagOptionsBuilder.tag] <;>
    exact insertAssoc_ne_nil _ _ _

theorem applyTagCalls_params_ne_nil (calls : List TagSetterCall) :
    ∀ b : TagOptionsBuilder, calls ≠ [] →
      (calls.foldl TagOptionsBuilder.applyCall b).params ≠ [] := by
  induction calls with
  | nil => intro b h; exact absurd rfl h
  | cons c cs ih =>
    intro b _
    rw [List.foldl_cons]
    cases cs with
    | nil => exact tagApplyCall_params_ne_nil b c
    | cons c' cs' => exact ih _ (by simp)

theorem imageListApplyCall_params_ne_nil
    (b : ImageListOptionsBuilder) (c : ImageListSetterCall) :
    (b.applyCall c).params ≠ [] := by
  cases c <;>
    simp only [ImageListOptionsBuilder.applyCall, ImageListOptionsBuilder.digests,
      ImageListOptionsBuilder.all, ImageListOptionsBuilder.filter_name,
      ImageListOptionsBuilder.filter] <;>
    exact insertAssoc_ne_nil _ _ _

theorem applyImageListCalls_params_ne_nil (calls : List ImageListSetterCall) :
    ∀ b : ImageListOptionsBuilder, calls ≠ [] →
      (calls.foldl ImageListOptionsBuilder.applyCall b).params ≠ [] := by
  induction calls with
  | nil => intro b h; exact absurd rfl h
  | cons c cs ih =>
    intro b _
    rw [List.foldl_cons]
    cases cs with
    | nil => exact imageListApplyCall_params_ne_nil b c
    | cons c' cs' => exact ih _ (by simp)

theorem buildApplyCall_params_ne_nil (b : BuildOptionsBuilder)
    (c : BuildSetterCall) : (b.applyCall c).params ≠ [] := by
  cases c <;>
    simp only [BuildOptionsBuilder.applyCall, BuildOptionsBuilder.dockerfile,
      BuildOptionsBuilder.tag, BuildOptionsBuilder.remote,
      BuildOptionsBuilder.nocache, BuildOptionsBuilder.rm,
      BuildOptionsBuilder.forcerm, BuildOptionsBuilder.network_mode,
      BuildOptionsBuilder.memory, BuildOptionsBuilder.cpu_shares] <;>
    exact insertAssoc_ne_nil _ _ _

theorem applyBuildCalls_params_ne_nil (calls : List BuildSetterCall) :
    ∀ b : BuildOptionsBuilder, calls ≠ [] →
      (calls.foldl BuildOptionsBuilder.applyCall b).params ≠ [] := by
  induction calls with
  | nil => intro b h; exact absurd rfl h
  | cons c cs ih =>
    intro b _
    rw [List.foldl_cons]
    cases cs with
    | nil => exact buildApplyCall_params_ne_nil b c
    | cons c' cs' => exact ih _ (by simp)

theorem applyPullCalls_params_eq_nil (calls : List PullSetterCall) :
    ∀ b : PullOptionsBuilder,
      ((calls.foldl PullOptionsBuilder.applyCall b).params = [] ↔
        b.params = [] ∧ calls.filter PullSetterCall.writesParam = []) := by
  induction calls with
  | nil => intro b; simp
  | cons c cs ih =>
    intro b
    rw [List.foldl_cons]
    cases c with
    | auth a =>
      rw [ih]
      simp [PullOptionsBuilder.applyCall, PullOptionsBuilder.setAuth,
        List.filter_cons, PullSetterCall.writesParam]
    | image img =>
      rw [ih]
      simp [PullOptionsBuilder.applyCall, PullOptionsBuilder.image,
        List.filter_cons, PullSetterCall.writesParam,
        insertAssoc_ne_nil (strBytes "fromImage") img b.params]
    | src s =>
      rw [ih]
      simp [PullOptionsBuilder.applyCall, PullOptionsBuilder.src,
        List.filter_cons, PullSetterCall.writesParam,
        insertAssoc_ne_nil (strBytes "fromSrc") s b.params]
    | repo r =>
      rw [ih]
      simp [PullOptionsBuilder.applyCall, PullOptionsBuilder.repo,
        List.filter_cons, PullSetterCall.writesParam,
        insertAssoc_ne_nil (strBytes "repo") r b.params]
    | tag t =>
      rw [ih]
      simp [PullOptionsBuilder.applyCall, PullOptionsBuilder.tag,
        List.filter_cons, PullSetterCall.writesParam,
        insertAssoc_ne_nil (strBytes "tag") t b.params]

/-! ## Request-factory characterization -/

/-- The header map produced by copying caller headers into an empty request. -/
def headersCopied (hs : List (List Nat × List Nat)) : List (List Nat × List Nat) :=
  hs.foldl (fun acc kv => insertAssoc (kv.1.map lowerByte) kv.2 acc) []

theorem foldl_insert_header (hs : List (List Nat × List Nat)) :
    ∀ r : Request,
      hs.foldl (fun r kv => r.insert_header kv.1 kv.2) r =
        { r with
          headers :=
            hs.foldl (fun acc kv => insertAssoc (kv.1.map lowerByte) kv.2 acc)
              r.headers } := by
  induction hs with
  | nil => intro r; rfl
  | cons kv t ih =>
    intro r
    rw [List.foldl_cons, List.foldl_cons, ih]
    rfl

theorem request_method (url : Url) (m : Method) (b : Option (List Nat × List Nat))
    (hs : List (List Nat × List Nat)) : (request url m b hs).method = Method.patch := by
  simp only [request]
  rw [foldl_insert_header]
  cases b <;> rfl

theorem request_url (url : Url) (m : Method) (b : Option (List Nat × List Nat))
    (hs : List (List Nat × List Nat)) : (request url m b hs).url = url := by
  simp only [request]
  rw [foldl_insert_header]
  cases b <;> rfl

theorem request_body (url : Url) (m : Method) (b : Option (List Nat × List Nat))
    (hs : List (List Nat × List Nat)) :
    (request url m b hs).body = b.map Prod.fst := by
  simp only [request]
  rw [foldl_insert_header]
  cases b <;> rfl

theorem request_headers_none (url : Url) (m : Method)
    (hs : List (List Nat × List Nat)) :
    (request url m none hs).headers = headersCopied hs := by
  simp only [request, headersCopied]
  rw [foldl_insert_header]

theorem content_type_lower :
    (strBytes "Content-Type").map lowerByte = strBytes "content-type" := by decide

theorem request_headers_some (url : Url) (m : Method) (bm : List Nat × List Nat)
    (hs : List (List Nat × List Nat)) :
    (request url m (some bm) hs).headers =
      insertAssoc (strBytes "content-type") bm.2 (headersCopied hs) := by
  simp only [request]
  rw [foldl_insert_header]
  show insertAssoc ((strBytes "Content-Type").map lowerByte) bm.2
      (hs.foldl (fun acc kv => insertAssoc (kv.1.map lowerByte) kv.2 acc) []) =
    insertAssoc (strBytes "content-type") bm.2 (headersCopied hs)
  rw [content_type_lower]
  rfl

/-! ## Byte bounds of rendered JSON -/

theorem mem_joinSep (sep x : Nat) (parts : List (List Nat))
    (h : x ∈ joinSep sep parts) : x = sep ∨ ∃ p ∈ parts, x ∈ p := by
  induction parts using joinSep.induct sep with
  | case1 => simp [joinSep] at h
  | case2 p => exact Or.inr ⟨p, by simp, h⟩
  | case3 p q rest ih =>
    rw [joinSep] at h
    rw [List.mem_append] at h
    rcases h with h | h
    · exact Or.inr ⟨p, by simp, h⟩
    · rcases List.mem_cons.mp h with h | h
      · exact Or.inl h
      · rcases ih h with h | ⟨p', hp', hx⟩
        · exact Or.inl h
        · exact Or.inr ⟨p', List.mem_cons_of_mem p hp', hx⟩

theorem jsonEscapeByte_lt (b : Nat) (hb : b < 256) :
    ∀ x ∈ jsonEscapeByte b, x < 256 := by
  intro x hx
  unfold jsonEscapeByte at hx
  split_ifs at hx <;>
    simp only [List.mem_cons, List.mem_singleton, List.not_mem_nil,
      or_false] at hx
  · rcases hx with rfl | rfl <;> omega
  · rcases hx with rfl | rfl <;> omega
  · rcases hx with rfl | rfl <;> omega
  · rcases hx with rfl | rfl <;> omega
  · rcases hx with rfl | rfl <;> omega
  · rcases hx with rfl | rfl <;> omega
  · rcases hx with rfl | rfl <;> omega
  · rcases hx with rfl | rfl | rfl | rfl | rfl | rfl <;>
      first
        | omega
        | (unfold hexDigitLower; split_ifs <;> omega)
  · subst hx; omega

theorem jsonString_lt (s : List Nat) (hs : ∀ b ∈ s, b < 256) :
    ∀ x ∈ jsonString s, x < 256 := by
  intro x hx
  unfold jsonString at hx
  rcases List.mem_cons.mp hx with h | h
  · omega
  · rcases List.mem_append.mp h with h | h
    · obtain ⟨l, hl, hxl⟩ := List.mem_flatten.mp h
      obtain ⟨b, hb, rfl⟩ := List.mem_map.mp hl
      exact jsonEscapeByte_lt b (hs b hb) x hxl
    · simp at h
      omega

theorem jsonObj_lt (fields : List (List Nat × List Nat))
    (hf : ∀ kv ∈ fields, (∀ b ∈ kv.1, b < 256) ∧ ∀ b ∈ kv.2, b < 256) :
    ∀ x ∈ jsonObj fields, x < 256 := by
  intro x hx
  unfold jsonObj at hx
  rcases List.mem_cons.mp hx with h | h
  · omega
  · rcases List.mem_append.mp h with h | h
    · rcases mem_joinSep 44 x _ h with h | ⟨p, hp, hxp⟩
      · omega
      · obtain ⟨kv, hkv, rfl⟩ := List.mem_map.mp hp
        rcases List.mem_append.mp hxp with h | h
        · exact jsonString_lt kv.1 (hf kv hkv).1 x h
        · rcases List.mem_cons.mp h with h | h
          · omega
          · exact (hf kv hkv).2 x h
    · simp at h
      omega

/-! ## Claims -/

/-- C1: the spec claims every resource-client operation's request carries
exactly the HTTP verb requested by the calling operation and that the request
factory never substitutes a different verb.  The code violates this: `request`
ignores its `method` argument and constructs every request with
`Method::Patch` (and the `get/post/put/patch/delete` helpers all pass
`Method::Delete` anyway), so a GET helper such as `Docker::version` and a
POST helper such as `Image::tag` both produce PATCH requests. -/
theorem C1_request_method_not_passthrough :
    (∀ (url : Url) (m : Method) (body : Option (List Nat × List Nat))
        (hs : List (List Nat × List Nat)),
      (request url m body hs).method = Method.patch) ∧
    (∀ d : Docker, (Docker.version d).method = Method.patch) ∧
    (∀ (d : Docker) (name : List Nat) (opts : TagOptions) (w : World),
      (Image.tag d name opts w).method = Method.patch) ∧
    (∀ (d : Docker) (name : List Nat) (w : World),
      (Volume.delete d name w).method = Method.patch) ∧
    Method.patch ≠ Method.get ∧ Method.patch ≠ Method.post ∧
      Method.patch ≠ Method.delete := by
  refine ⟨request_method, ?_, ?_, ?_, by decide, by decide, by decide⟩
  · intro d
    exact request_method _ _ _ _
  · intro d name opts w
    exact request_method _ _ _ _
  · intro d name w
    exact request_method _ _ _ _

/-- C2: the spec claims an authenticated pull carries an `X-Registry-Auth`
header with the base64 JSON credential and a non-default content type.  The
code computes the header into a local binding and then drops it, passing no
headers and no body: the produced request has an empty header map (hence no
registry-auth header and no content type) for every `PullOptions`, auth set
or not. -/
theorem C2_pull_request_lacks_auth_and_content :
    ∀ (d : Docker) (opts : PullOptions) (w : World),
      (Images.pull d opts w).headers = [] ∧
      (Images.pull d opts w).body = none ∧
      lookupAssoc (strBytes "x-registry-auth") (Images.pull d opts w).headers =
        none ∧
      lookupAssoc (strBytes "content-type") (Images.pull d opts w).headers =
        none := by
  intro d opts w
  simp only [Images.pull, Docker.post]
  refine ⟨?_, ?_, ?_, ?_⟩
  · rw [request_headers_none]
    rfl
  · rw [request_body]
    rfl
  · rw [request_headers_none]
    rfl
  · rw [request_headers_none]
    rfl

/-- C3 counterexample: calling `filter([Label("a","1")])` then
`filter([Label("b","2")])` on `ImageListOptionsBuilder`, building and
serializing, yields a `filters` query parameter whose decoded JSON is
`{"label":["b=2"]}`; the list for label `a` is absent, contradicting the
claim that the union of both calls' filters is retained. -/
theorem C3_counterexample :
    decodeQuery
        (((({} : ImageListOptionsBuilder).filter
              [ImageFilter.label (strBytes "a") (strBytes "1")]).filter
            [ImageFilter.label (strBytes "b") (strBytes "2")]).build.serialize.getD
          []) =
      [(strBytes "filters", strBytes "\x7b\"label\":[\"b=2\"]\x7d")] ∧
    ¬ List.IsInfix (strBytes "a=1") (strBytes "\x7b\"label\":[\"b=2\"]\x7d") :=
  ⟨by decide, by decide⟩

/-- C3 amended: `EventsOptionsBuilder` accumulates filter lists across
`filter` calls (two label filters in successive calls both appear in the
stored `filters` JSON), while `ImageListOptionsBuilder::filter` rebuilds a
fresh map per call, so only the most recent call's (and per kind, the last)
filter survives. -/
theorem C3_filter_accumulation_amended :
    (∀ a b : List Nat,
      lookupAssoc (strBytes "filters")
          ((({} : EventsOptionsBuilder).filter [EventFilter.label a]).filter
            [EventFilter.label b]).params =
        some (jsonObj [(strBytes "label", jsonStrArr [a, b])])) ∧
    (∀ n1 v1 n2 v2 : List Nat,
      lookupAssoc (strBytes "filters")
          ((({} : ImageListOptionsBuilder).filter
              [ImageFilter.label n1 v1]).filter
            [ImageFilter.label n2 v2]).params =
        some (jsonObj [(strBytes "label", jsonStrArr [n2 ++ 61 :: v2])])) := by
  constructor
  · intro a b
    rfl
  · intro n1 v1 n2 v2
    rfl

/-- C4 counterexample: on `PullOptionsBuilder`, invoking only the `auth`
setter leaves the params map empty, so `serialize()` returns `None` even
though a setter was invoked, refuting the claimed equivalence between
`serialize() = None` and "no setter was invoked". -/
theorem C4_counterexample :
    ¬ (((applyPullCalls
          [PullSetterCall.auth (RegistryAuth.token (strBytes "abc"))]).build.serialize =
        none) ↔
      ([PullSetterCall.auth (RegistryAuth.token (strBytes "abc"))] :
        List PullSetterCall) = []) := by
  intro h
  exact List.cons_ne_nil _ _ (h.mp (by decide))

/-- C4 amended: for the query-string option builders, `serialize()` returns
`None` exactly when no parameter-writing setter was invoked (every setter of
the events, tag, image-list and build builders writes a parameter; on the
pull builder `auth` records the credential without writing one); when the
params map is nonempty, decoding the percent-encoded query recovers exactly
the stored map, whose entries obey last-write-wins per key with unset keys
absent (the `lookupAssoc`/`insertAssoc` clauses). -/
theorem C4_serialize_none_iff_amended :
    (∀ calls : List EventsSetterCall,
      ((applyEventsCalls calls).build.serialize = none ↔ calls = [])) ∧
    (∀ calls : List TagSetterCall,
      ((applyTagCalls calls).build.serialize = none ↔ calls = [])) ∧
    (∀ calls : List ImageListSetterCall,
      ((applyImageListCalls calls).build.serialize = none ↔ calls = [])) ∧
    (∀ (path : List Nat) (calls : List BuildSetterCall),
      ((applyBuildCalls path calls).build.serialize = none ↔ calls = [])) ∧
    (∀ calls : List PullSetterCall,
      ((applyPullCalls calls).build.serialize = none ↔
        calls.filter PullSetterCall.writesParam = [])) ∧
    (∀ params : List (List Nat × List Nat), params ≠ [] →
      (∀ kv ∈ params, (∀ b ∈ kv.1, b < 256) ∧ ∀ b ∈ kv.2, b < 256) →
      decodeQuery (encodeQuery params) = params) ∧
    (∀ (k v : List Nat) (l : List (List Nat × List Nat)),
      lookupAssoc k (insertAssoc k v l) = some v) ∧
    (∀ (k k' : List Nat) (v : List Nat) (l : List (List Nat × List Nat)),
      k' ≠ k → lookupAssoc k' (insertAssoc k v l) = lookupAssoc k' l) := by
  refine ⟨?_, ?_, ?_, ?_, ?_, decodeQuery_encodeQuery, ?_, ?_⟩
  · intro calls
    have hs : (applyEventsCalls calls).build.serialize =
        serializeParams (calls.foldl EventsOptionsBuilder.applyCall {}).params := rfl
    rw [hs, serializeParams_eq_none_iff]
    constructor
    · intro h
      by_contra hc
      exact applyEventsCalls_params_ne_nil calls _ hc h
    · intro h
      subst h
      rfl
  · intro calls
    have hs : (applyTagCalls calls).build.serialize =
        serializeParams (calls.foldl TagOptionsBuilder.applyCall {}).params := rfl
    rw [hs, serializeParams_eq_none_iff]
    constructor
    · intro h
      by_contra hc
      exact applyTagCalls_params_ne_nil calls _ hc h
    · intro h
      subst h
      rfl
  · intro calls
    have hs : (applyImageListCalls calls).build.serialize =
        serializeParams
          (calls.foldl ImageListOptionsBuilder.applyCall {}).params := rfl
    rw [hs, serializeParams_eq_none_iff]
    constructor
    · intro h
      by_contra hc
      exact applyImageListCalls_params_ne_nil calls _ hc h
    · intro h
      subst h
      rfl
  · intro path calls
    have hs : (applyBuildCalls path calls).build.serialize =
        serializeParams
          (calls.foldl BuildOptionsBuilder.applyCall
            (BuildOptionsBuilder.new path)).params := rfl
    rw [hs, serializeParams_eq_none_iff]
    constructor
    · intro h
      by_contra hc
      exact applyBuildCalls_params_ne_nil calls _ hc h
    · intro h
      subst h
      rfl
  · intro calls
    have hs : (applyPullCalls calls).build.serialize =
        serializeParams (calls.foldl PullOptionsBuilder.applyCall {}).params := rfl
    rw [hs, serializeParams_eq_none_iff, applyPullCalls_params_eq_nil]
    simp
  · intro k v l
    exact lookupAssoc_insertAssoc_self k v l
  · intro k k' v l h
    exact lookupAssoc_insertAssoc_ne k k' v l h

/-- C4 amended witness: concrete instances of the amended claim, obtained by
applying it: no calls on the events builder serializes to `None`; a concrete
one-pair map roundtrips through form-urlencoding; and a repeated write to the
same key keeps only the last value. -/
theorem C4_amended_witness :
    (applyEventsCalls []).build.serialize = none ∧
    decodeQuery (encodeQuery [(strBytes "tag", strBytes "v1")]) =
      [(strBytes "tag", strBytes "v1")] ∧
    lookupAssoc (strBytes "tag")
        (insertAssoc (strBytes "tag") (strBytes "v2")
          [(strBytes "tag", strBytes "v1")]) =
      some (strBytes "v2") :=
  ⟨(C4_serialize_none_iff_amended.1 []).mpr rfl,
   C4_serialize_none_iff_amended.2.2.2.2.2.1 [(strBytes "tag", strBytes "v1")]
     (by decide) (by decide),
   C4_serialize_none_iff_amended.2.2.2.2.2.2.1 (strBytes "tag") (strBytes "v2")
     [(strBytes "tag", strBytes "v1")]⟩

/-- C5 counterexample: image build reads the file system while constructing
its request: with identical `BuildOptions`, two different ambient file
systems yield different request bodies, so construction is not a function of
the operation's inputs alone. -/
theorem C5_counterexample :
    Images.build { endpoint := hardcodedEndpoint }
        { path := strBytes "/ctx", params := [] } (fun _ => []) ≠
      Images.build { endpoint := hardcodedEndpoint }
        { path := strBytes "/ctx", params := [] } (fun _ => [0]) := by
  intro h
  have hb := congrArg Request.body h
  have h1 : (Images.build { endpoint := hardcodedEndpoint }
      { path := strBytes "/ctx", params := [] } (fun _ => [])).body = some [] := by
    rw [show Images.build { endpoint := hardcodedEndpoint }
        { path := strBytes "/ctx", params := [] } (fun _ => []) =
        request ((hardcodedEndpoint : Url).join (strBytes "/build")) Method.delete
          (some ([], tar_mime)) [] from rfl, request_body]
    rfl
  have h2 : (Images.build { endpoint := hardcodedEndpoint }
      { path := strBytes "/ctx", params := [] } (fun _ => [0])).body = some [0] := by
    rw [show Images.build { endpoint := hardcodedEndpoint }
        { path := strBytes "/ctx", params := [] } (fun _ => [0]) =
        request ((hardcodedEndpoint : Url).join (strBytes "/build")) Method.delete
          (some ([0], tar_mime)) [] from rfl, request_body]
    rfl
  rw [h1, h2] at hb
  simp at hb

/-- C5 amended: resource-client request construction in this layer is a pure
function of the operation's arguments, independent of the ambient file
system, for every operation except image build (whose body is the archived
target directory read from the file system) and image import (whose body is
the supplied tarball bytes, an explicit input). -/
theorem C5_construction_world_independent :
    ∀ (d : Docker) (w1 w2 : World),
      (∀ opts, Images.list d opts w1 = Images.list d opts w2) ∧
      (∀ opts, Images.pull d opts w1 = Images.pull d opts w2) ∧
      (∀ t, Images.importTarball d t w1 = Images.importTarball d t w2) ∧
      (∀ term, Images.search d term w1 = Images.search d term w2) ∧
      (∀ names, Images.exportImages d names w1 = Images.exportImages d names w2) ∧
      (∀ name, Image.inspect d name w1 = Image.inspect d name w2) ∧
      (∀ name, Image.history d name w1 = Image.history d name w2) ∧
      (∀ name, Image.delete d name w1 = Image.delete d name w2) ∧
      (∀ name, Image.exportImage d name w1 = Image.exportImage d name w2) ∧
      (∀ name opts, Image.tag d name opts w1 = Image.tag d name opts w2) ∧
      (∀ opts, Volumes.create d opts w1 = Volumes.create d opts w2) ∧
      Volumes.list d w1 = Volumes.list d w2 ∧
      (∀ name, Volume.delete d name w1 = Volume.delete d name w2) := by
  intro d w1 w2
  exact ⟨fun _ => rfl, fun _ => rfl, fun _ => rfl, fun _ => rfl, fun _ => rfl,
    fun _ => rfl, fun _ => rfl, fun _ => rfl, fun _ => rfl, fun _ _ => rfl,
    fun _ => rfl, rfl, fun _ => rfl⟩

/-- C6: registry-auth round-trip.  Base64-decoding the serialization of a
token credential recovers exactly the JSON object with the single key
`identitytoken` holding the token; and a password credential built with only
username and password serializes with exactly the keys `username` and
`password` — no `email` and no `serveraddress` key at all. -/
theorem C6_registry_auth_roundtrip :
    (∀ t : List Nat, (∀ b ∈ t, b < 256) →
      b64decode (RegistryAuth.serialize (RegistryAuth.token t)) =
        some (jsonObj [(strBytes "identitytoken", jsonString t)])) ∧
    (∀ u p : List Nat,
      (RegistryAuth.fields
          ((({} : RegistryAuthBuilder).setUsername u).setPassword p).build).map
          Prod.fst =
        [strBytes "username", strBytes "password"] ∧
      strBytes "email" ∉
        (RegistryAuth.fields
          ((({} : RegistryAuthBuilder).setUsername u).setPassword p).build).map
          Prod.fst ∧
      strBytes "serveraddress" ∉
        (RegistryAuth.fields
          ((({} : RegistryAuthBuilder).setUsername u).setPassword p).build).map
          Prod.fst) := by
  constructor
  · intro t ht
    show b64decode (b64encode (jsonObj [(strBytes "identitytoken", jsonString t)])) = _
    apply b64decode_b64encode
    apply jsonObj_lt
    intro kv hkv
    rcases List.mem_singleton.mp hkv with rfl
    refine ⟨?_, ?_⟩
    · show ∀ b ∈ strBytes "identitytoken", b < 256
      decide
    · show ∀ b ∈ jsonString t, b < 256
      exact jsonString_lt t ht
  · intro u p
    have hmap : (RegistryAuth.fields
        ((({} : RegistryAuthBuilder).setUsername u).setPassword p).build).map
        Prod.fst = [strBytes "username", strBytes "password"] := rfl
    refine ⟨hmap, ?_, ?_⟩
    · rw [hmap]
      decide
    · rw [hmap]
      decide

/-- C6 witness: the amended-free claim applied at the token `abc`; the
decoded bytes are literally the JSON `{"identitytoken":"abc"}`, matching the
repository's own unit test. -/
theorem C6_witness :
    (∀ b ∈ strBytes "abc", b < 256) ∧
    b64decode (RegistryAuth.serialize (RegistryAuth.token (strBytes "abc"))) =
      some (strBytes "\x7b\"identitytoken\":\"abc\"\x7d") :=
  ⟨by decide, by
    rw [C6_registry_auth_roundtrip.1 (strBytes "abc") (by decide)]
    decide⟩

/-- C7: volume create produces a request whose body is the direct JSON
encoding of the options (not form-urlencoded), whose URL path is
`/volumes/create` with no query string, and whose content type is
`application/json`; in general the factory's final `content-type` header is
the body's MIME type when a body is present, and with no body it is exactly
whatever the caller-supplied headers provide (nothing, for an empty header
list). -/
theorem C7_volume_create_json_body :
    (∀ (d : Docker) (opts : VolumeCreateOptions) (w : World),
      (Volumes.create d opts w).url.path = strBytes "/volumes/create" ∧
      (Volumes.create d opts w).url.query = none ∧
      (Volumes.create d opts w).body = some (jsonObj opts.params) ∧
      lookupAssoc (strBytes "content-type") (Volumes.create d opts w).headers =
        some (strBytes "application/json")) ∧
    (∀ (url : Url) (m : Method) (bm : List Nat × List Nat)
        (hs : List (List Nat × List Nat)),
      lookupAssoc (strBytes "content-type") (request url m (some bm) hs).headers =
        some bm.2) ∧
    (∀ (url : Url) (m : Method) (hs : List (List Nat × List Nat)),
      (request url m none hs).headers = headersCopied hs) ∧
    (∀ (url : Url) (m : Method), (request url m none []).headers = []) := by
  refine ⟨?_, ?_, request_headers_none, ?_⟩
  · intro d opts w
    have hjoin : (d.endpoint).join (strBytes "/volumes/create") =
        { d.endpoint with path := strBytes "/volumes/create", query := none } := by
      unfold Url.join
      rw [if_neg (by decide : ¬ ((63 : Nat) ∈ strBytes "/volumes/create"))]
    simp only [Volumes.create, Docker.post]
    refine ⟨?_, ?_, ?_, ?_⟩
    · rw [request_url, hjoin]
    · rw [request_url, hjoin]
    · rw [request_body]
      rfl
    · rw [request_headers_some]
      exact lookupAssoc_insertAssoc_self _ _ _
  · intro url m bm hs
    rw [request_headers_some]
    exact lookupAssoc_insertAssoc_self _ _ _
  · intro url m
    rw [request_headers_none]
    rfl

/-- C8: when the `docker` path parameter cannot be extracted, the gateway
middleware replies 400 (a client-error status) itself and the nested handler
never runs (so no outbound call is made); when it is present, the resolved
endpoint is attached to the request context and the nested handler runs. -/
theorem C8_gateway_resolution :
    docker_id none = DockerIdOutcome.reject 400 ∧
    400 < 500 ∧
    (∀ id, docker_id (some id) = DockerIdOutcome.proceed hardcodedEndpoint) :=
  ⟨rfl, by omega, fun _ => rfl⟩

/-- C9: the resolver attaches the same hardcoded endpoint
`http://127.0.0.1:8010` for every present identifier — the resolved endpoint
is independent of the tenant identifier's value. -/
theorem C9_endpoint_independent_of_id :
    ∀ id1 id2 : List Nat,
      docker_id (some id1) = docker_id (some id2) ∧
      docker_id (some id1) = DockerIdOutcome.proceed hardcodedEndpoint :=
  fun _ _ => ⟨rfl, rfl⟩

/-- C10: `Docker::host` unwraps the URL's host, so it succeeds exactly on
URLs that have a host component and panics (modelled as `none`) on URLs
without one, instead of returning an error. -/
theorem C10_host_requires_host :
    ∀ u : Url,
      ((Docker.hostFn u).isSome ↔ u.host.isSome) ∧
      (u.host = none → Docker.hostFn u = none) ∧
      (∀ h, u.host = some h → Docker.hostFn u = some { endpoint := u }) := by
  intro u
  cases hh : u.host with
  | none =>
    have hfn : Docker.hostFn u = none := by
      unfold Docker.hostFn
      rw [hh]
    refine ⟨?_, fun _ => hfn, ?_⟩
    · rw [hfn]
      simp
    · intro h hsome
      exact absurd hsome (by simp)
  | some h0 =>
    have hfn : Docker.hostFn u = some { endpoint := u } := by
      unfold Docker.hostFn
      rw [hh]
    refine ⟨?_, ?_, ?_⟩
    · rw [hfn]
      simp
    · intro hnone
      exact absurd hnone (by simp)
    · intro h _
      exact hfn

/-- C10 witness: the claim theorem applied at a host-less unix-socket-style
URL (panic, modelled `none`) and at an HTTP URL with a host (success). -/
theorem C10_witness :
    Docker.hostFn
        (Url.mk "unix" none none (strBytes "/var/run/docker.sock") none) = none ∧
    Docker.hostFn
        (Url.mk "http" (some (strBytes "localhost")) (some 8000) (strBytes "/") none) =
      some (Docker.mk
        (Url.mk "http" (some (strBytes "localhost")) (some 8000) (strBytes "/") none)) :=
  ⟨(C10_host_requires_host _).2.1 rfl, (C10_host_requires_host _).2.2 _ rfl⟩
